import Mathlib

/-!
Shallow embedding of the image-server (src/server.js).

The server is a small Express application: a CORS origin filter, a multer
intake stage (in-memory storage, a MIME-type allow-list, a per-file size
limit and a per-request file-count limit), a transcode step dispatching on
the stored filename extension, and list/delete endpoints over the storage
directory.  External effects are made explicit: image encoding is a tagged
value recording the encoder and its parameters, disk writes are a trace of
(filename, content) pairs, write/encode failures come from an oracle, the
clock is a parameter, and the storage directory is a list of filenames.
-/

namespace ImageServer

/-- Environment-derived configuration with its defaults (server.js lines 17-28). -/
structure Config where
  uploadsUrl : String
  allowedOrigins : List String
  maxFiles : Nat
  maxFileSize : Nat
  allowedTypes : List String
deriving DecidableEq

/-- The default configuration values from server.js lines 17-28. -/
def defaultConfig : Config :=
  { uploadsUrl := "https://cdn.soulcraftbd.com/uploads"
    allowedOrigins := ["https://soulcraftbd.com"]
    maxFiles := 20
    maxFileSize := 2 * 1024 * 1024
    allowedTypes := ["image/jpeg", "image/png", "image/webp"] }

/-- The last path segment of a POSIX path, trailing slashes stripped
(the portion Node's path.extname inspects). -/
def basenameOf (p : String) : String :=
  let rev := p.data.reverse.dropWhile (fun c => c == '/')
  String.mk ((rev.takeWhile (fun c => !(c == '/'))).reverse)

/-- Node.js path.extname: the substring of the basename from its last dot,
empty when there is no dot, when the only dot is the basename head, or when
the basename is exactly "..". -/
def extname (p : String) : String :=
  let b := (basenameOf p).data
  if b = ['.', '.'] then ""
  else
    let after := b.reverse.takeWhile (fun c => !(c == '.'))
    if after.length = b.length then ""
    else
      let i := b.length - after.length - 1
      if i = 0 then "" else String.mk (b.drop i)

/-- JavaScript String.prototype.toLowerCase restricted to ASCII, which is all
the dispatch in compressImage compares against. -/
def jsToLower (s : String) : String := String.mk (s.data.map Char.toLower)

/-- The content written by the transcode step: sharp encoder invocations with
their parameters, or the raw input bytes for the verbatim fallback branch. -/
inductive EncodedContent where
  | jpeg (quality : Nat) (mozjpeg : Bool) (src : List Nat)
  | png (compressionLevel : Nat) (adaptiveFiltering : Bool) (src : List Nat)
  | webp (quality : Nat) (src : List Nat)
  | raw (bytes : List Nat)
deriving DecidableEq

/-- Oracle deciding whether writing a given file succeeds; `some msg` is an
encode/write failure carrying the thrown error message. -/
def WriteOracle : Type := String → EncodedContent → Option String

/-- The extension dispatch of compressImage (server.js lines 73, 76-86). -/
def transcodeContent (buffer : List Nat) (filename : String) : EncodedContent :=
  let ext := jsToLower (extname filename)
  if [".jpg", ".jpeg"].contains ext then EncodedContent.jpeg 80 true buffer
  else if ext = ".png" then EncodedContent.png 9 true buffer
  else if ext = ".webp" then EncodedContent.webp 80 buffer
  else EncodedContent.raw buffer

/-- compressImage (server.js lines 72-89): transcode by extension, write the
result under the stored filename, return the public URL.  The successful
result carries the returned URL and the performed write. -/
def compressImage (cfg : Config) (io : WriteOracle) (buffer : List Nat)
    (filename : String) : Except String (String × (String × EncodedContent)) :=
  match io filename (transcodeContent buffer filename) with
  | some err => Except.error err
  | none =>
    Except.ok (cfg.uploadsUrl ++ "/" ++ filename,
      (filename, transcodeContent buffer filename))

/-- One multipart file part as multer presents it: client-supplied original
name, declared MIME type, and the buffered bytes. -/
structure FilePart where
  originalname : String
  mimetype : String
  buffer : List Nat
deriving DecidableEq

/-- The errors the multer stage can produce: the fileSize limit, the
file-count limit, and a fileFilter rejection carrying its message. -/
inductive MulterError where
  | limitFileSize
  | limitUnexpectedFile
  | filterError (msg : String)
deriving DecidableEq

/-- err.message as the route handlers read it: multer's own text for its
limit errors, the fileFilter's text otherwise. -/
def MulterError.message : MulterError → String
  | MulterError.limitFileSize => "File too large"
  | MulterError.limitUnexpectedFile => "Unexpected field"
  | MulterError.filterError msg => msg

/-- The fileFilter rejection message (server.js line 67). -/
def invalidTypeMsg : String := "Invalid file type (JPEG, PNG, WebP only)."

/-- The multer intake stage (server.js lines 61-69) over the parts of one
request, with `n` file slots remaining: per part, the count limit is checked
first (multer wraps the user fileFilter in a count check), then the
MIME-type allow-list, then the fileSize limit while buffering; the first
error aborts the whole parse. -/
def runMulter (cfg : Config) : Nat → List FilePart → Except MulterError (List FilePart)
  | _, [] => Except.ok []
  | n, p :: ps =>
    if n = 0 then Except.error MulterError.limitUnexpectedFile
    else if cfg.allowedTypes.contains p.mimetype then
      if p.buffer.length > cfg.maxFileSize then Except.error MulterError.limitFileSize
      else
        match runMulter cfg (n - 1) ps with
        | Except.error e => Except.error e
        | Except.ok rest => Except.ok (p :: rest)
    else Except.error (MulterError.filterError invalidTypeMsg)

/-- The JSON response shape shared by all routes, with the HTTP status. -/
structure JsonResponse where
  status : Nat
  success : Bool
  message : Option String := none
  url : Option String := none
  urls : Option (List String) := none
  images : Option (List String) := none
deriving DecidableEq

/-- The stored filename: Date.now() rendered in decimal, a hyphen, then the
client original name unchanged (server.js lines 124 and 148). -/
def storedFilename (now : Nat) (originalname : String) : String :=
  toString now ++ "-" ++ originalname

/-- Size-limit message of the single-upload route (server.js line 119). -/
def sizeMsgSingle : String := "File too large (max 2MB)"

/-- Size-limit message of the multiple-upload route (server.js line 141). -/
def sizeMsgMultiple : String := "Each file must be under 2MB"

/-- The 400 response both upload routes build from a multer error
(server.js lines 114-121 and 136-143): the size message when
err.code is LIMIT_FILE_SIZE, err.message otherwise. -/
def multerErrResponse (sizeMsg : String) (e : MulterError) : JsonResponse :=
  { status := 400, success := false
    message := some (if e = MulterError.limitFileSize then sizeMsg else e.message) }

/-- The message of the TypeError thrown by req.file.originalname when no file
part was supplied (req.file is undefined). -/
def noFileMsg : String := "Cannot read properties of undefined"

/-- POST /upload/single (server.js lines 112-131): multer with one file slot
for field file, then the stored name is derived, compressImage runs, and the
URL is returned; any thrown error is caught as a 500.  Returns the response
and the trace of writes performed. -/
def uploadSingle (cfg : Config) (io : WriteOracle) (now : Nat)
    (parts : List FilePart) : JsonResponse × List (String × EncodedContent) :=
  match runMulter cfg 1 parts with
  | Except.error e => (multerErrResponse sizeMsgSingle e, [])
  | Except.ok accepted =>
    match accepted.head? with
    | none => ({ status := 500, success := false, message := some noFileMsg }, [])
    | some file =>
      match compressImage cfg io file.buffer (storedFilename now file.originalname) with
      | Except.error msg => ({ status := 500, success := false, message := some msg }, [])
      | Except.ok (url, w) => ({ status := 200, success := true, url := some url }, [w])

/-- The for-of loop of the multiple-upload handler (server.js lines 146-151):
process the accepted files in order, calling Date.now() (the clock at the
running call index `i`) per file; the first compressImage failure aborts the
loop, but writes already performed are kept in the trace. -/
def processFiles (cfg : Config) (io : WriteOracle) (clock : Nat → Nat) :
    Nat → List FilePart → Except String (List String) × List (String × EncodedContent)
  | _, [] => (Except.ok [], [])
  | i, f :: fs =>
    match compressImage cfg io f.buffer (storedFilename (clock i) f.originalname) with
    | Except.error msg => (Except.error msg, [])
    | Except.ok (url, w) =>
      (match (processFiles cfg io clock (i + 1) fs).1 with
       | Except.error msg => Except.error msg
       | Except.ok urls => Except.ok (url :: urls),
       w :: (processFiles cfg io clock (i + 1) fs).2)

/-- POST /upload/multiple (server.js lines 134-157): multer with maxFiles
slots for field files, then the sequential loop; a loop failure is a 500
carrying the thrown message.  Returns the response and the write trace. -/
def uploadMultiple (cfg : Config) (io : WriteOracle) (clock : Nat → Nat)
    (parts : List FilePart) : JsonResponse × List (String × EncodedContent) :=
  match runMulter cfg cfg.maxFiles parts with
  | Except.error e => (multerErrResponse sizeMsgMultiple e, [])
  | Except.ok files =>
    match processFiles cfg io clock 0 files with
    | (Except.error msg, ws) =>
      ({ status := 500, success := false, message := some msg }, ws)
    | (Except.ok urls, ws) =>
      ({ status := 200, success := true, urls := some urls }, ws)

/-- GET /images (server.js lines 102-109): on a readdir error a 500 with the
error message, otherwise the directory entries each mapped to a URL. -/
def listImages (cfg : Config) (readdirResult : Except String (List String)) :
    JsonResponse :=
  match readdirResult with
  | Except.error e => { status := 500, success := false, message := some e }
  | Except.ok files =>
    { status := 200, success := true
      images := some (files.map (fun file => cfg.uploadsUrl ++ "/" ++ file)) }

/-- DELETE /images/:filename (server.js lines 160-169): fs.unlink removes the
file when it exists and the OS permits (`removable`); any unlink error is
reported as a 404.  Returns the response and the new directory state. -/
def deleteImage (dir : List String) (removable : String → Bool)
    (filename : String) : JsonResponse × List String :=
  if dir.contains filename && removable filename then
    ({ status := 200, success := true, message := some "Deleted successfully" },
     dir.erase filename)
  else
    ({ status := 404, success := false
       message := some "File not found or already deleted" }, dir)

/-- The CORS origin callback (server.js lines 36-43): allow when the origin
is JavaScript-falsy (the header is absent, or it is the empty string) or is
listed in the allow-list; otherwise fail with the CORS error. -/
def corsOrigin (allowedOrigins : List String) (origin : Option String) :
    Except String Bool :=
  match origin with
  | none => Except.ok true
  | some o =>
    if o = "" || allowedOrigins.contains o then Except.ok true
    else Except.error "Not allowed by CORS"

/-- The membership test of the jpg/jpeg branch, read as a disjunction. -/
theorem contains_jpg_iff (ext : String) :
    [".jpg", ".jpeg"].contains ext = true ↔ ext = ".jpg" ∨ ext = ".jpeg" :=
  List.elem_iff.trans (by simp)

/-- The dispatch of transcodeContent spelled with explicit disjunctions. -/
theorem transcodeContent_cases (buffer : List Nat) (filename : String) :
    transcodeContent buffer filename =
      (if jsToLower (extname filename) = ".jpg" ∨ jsToLower (extname filename) = ".jpeg" then
        EncodedContent.jpeg 80 true buffer
      else if jsToLower (extname filename) = ".png" then
        EncodedContent.png 9 true buffer
      else if jsToLower (extname filename) = ".webp" then
        EncodedContent.webp 80 buffer
      else EncodedContent.raw buffer) := by
  unfold transcodeContent
  by_cases h : jsToLower (extname filename) = ".jpg" ∨ jsToLower (extname filename) = ".jpeg"
  · rw [if_pos ((contains_jpg_iff _).mpr h), if_pos h]
  · rw [if_neg (fun hc => h ((contains_jpg_iff _).mp hc)), if_neg h]

/-- C1: the transcode step dispatches on the stored filename extension,
case-insensitively: jpg/jpeg becomes a quality-80 JPEG, png a PNG at
compression level 9 with adaptive filtering, webp a quality-80 WebP, and any
other extension writes the original bytes verbatim; the write goes to the
stored filename and the returned URL is the base URL over that filename. -/
theorem compressImage_dispatch (cfg : Config) (io : WriteOracle)
    (buffer : List Nat) (filename : String) (url : String)
    (w : String × EncodedContent)
    (h : compressImage cfg io buffer filename = Except.ok (url, w)) :
    url = cfg.uploadsUrl ++ "/" ++ filename ∧ w.1 = filename ∧
    w.2 =
      (if jsToLower (extname filename) = ".jpg" ∨ jsToLower (extname filename) = ".jpeg" then
        EncodedContent.jpeg 80 true buffer
      else if jsToLower (extname filename) = ".png" then
        EncodedContent.png 9 true buffer
      else if jsToLower (extname filename) = ".webp" then
        EncodedContent.webp 80 buffer
      else EncodedContent.raw buffer) := by
  rw [show compressImage cfg io buffer filename =
      (match io filename (transcodeContent buffer filename) with
       | some err => Except.error err
       | none => Except.ok (cfg.uploadsUrl ++ "/" ++ filename,
           (filename, transcodeContent buffer filename))) from rfl] at h
  cases hio : io filename (transcodeContent buffer filename) with
  | some err => rw [hio] at h; cases h
  | none =>
    rw [hio] at h
    obtain ⟨h1, h2⟩ := Prod.mk.injEq .. ▸ Except.ok.inj h
    rw [← transcodeContent_cases]
    exact ⟨h1.symm, congrArg Prod.fst h2.symm, congrArg Prod.snd h2.symm⟩

/-- Witness for C1 at a concrete uppercase jpg input. -/
theorem compressImage_dispatch_witness :
    compressImage defaultConfig (fun _ _ => none) [9, 9] "1-CAT.Jpg" =
      Except.ok ("https://cdn.soulcraftbd.com/uploads/1-CAT.Jpg",
        ("1-CAT.Jpg", EncodedContent.jpeg 80 true [9, 9])) ∧
    EncodedContent.jpeg 80 true [9, 9] =
      (if jsToLower (extname "1-CAT.Jpg") = ".jpg" ∨
          jsToLower (extname "1-CAT.Jpg") = ".jpeg" then
        EncodedContent.jpeg 80 true [9, 9]
      else if jsToLower (extname "1-CAT.Jpg") = ".png" then
        EncodedContent.png 9 true [9, 9]
      else if jsToLower (extname "1-CAT.Jpg") = ".webp" then
        EncodedContent.webp 80 [9, 9]
      else EncodedContent.raw [9, 9]) :=
  ⟨rfl,
    (compressImage_dispatch defaultConfig (fun _ _ => none) [9, 9] "1-CAT.Jpg"
      ("https://cdn.soulcraftbd.com/uploads/1-CAT.Jpg")
      ("1-CAT.Jpg", EncodedContent.jpeg 80 true [9, 9]) rfl).2.2⟩

/-- C6: the listing endpoint maps exactly the directory entries to public
URLs on success, and reports a 500 with the underlying message when the
directory cannot be read. -/
theorem listImages_exact (cfg : Config) (dir : List String) (e : String) :
    listImages cfg (Except.ok dir) =
      { status := 200, success := true
        images := some (dir.map (fun file => cfg.uploadsUrl ++ "/" ++ file)) } ∧
    (∀ u : String,
      u ∈ dir.map (fun file => cfg.uploadsUrl ++ "/" ++ file) ↔
        ∃ f, f ∈ dir ∧ u = cfg.uploadsUrl ++ "/" ++ f) ∧
    listImages cfg (Except.error e) =
      { status := 500, success := false, message := some e } := by
  refine ⟨rfl, ?_, rfl⟩
  intro u
  simp only [List.mem_map]
  constructor
  · rintro ⟨f, hf, hu⟩; exact ⟨f, hf, hu.symm⟩
  · rintro ⟨f, hf, hu⟩; exact ⟨f, hf, hu.symm⟩

/-- Witness for C6 at a one-file directory and a failing readdir. -/
theorem listImages_exact_witness :
    listImages defaultConfig (Except.ok ["a.jpg"]) =
      { status := 200, success := true
        images := some ["https://cdn.soulcraftbd.com/uploads/a.jpg"] } ∧
    listImages defaultConfig (Except.error "EACCES") =
      { status := 500, success := false, message := some "EACCES" } := by
  have h := listImages_exact defaultConfig ["a.jpg"] "EACCES"
  exact ⟨h.1.trans (by decide), h.2.2⟩

/-- C7: deleting an existing removable file removes exactly that file and
reports success; a missing or unremovable file yields the 404 not-found
response and leaves the directory unchanged. -/
theorem deleteImage_spec (dir : List String) (removable : String → Bool)
    (filename : String) :
    (dir.contains filename = true → removable filename = true →
      deleteImage dir removable filename =
        ({ status := 200, success := true, message := some "Deleted successfully" },
         dir.erase filename)) ∧
    (dir.Nodup → dir.contains filename = true → removable filename = true →
      filename ∉ (deleteImage dir removable filename).2) ∧
    (dir.contains filename = false ∨ removable filename = false →
      deleteImage dir removable filename =
        ({ status := 404, success := false
           message := some "File not found or already deleted" }, dir)) := by
  refine ⟨fun h1 h2 => ?_, fun hnd h1 h2 => ?_, fun h => ?_⟩
  · simp [deleteImage, List.elem_iff.mp h1, h2]
  · simp [deleteImage, List.elem_iff.mp h1, h2, List.Nodup.mem_erase_iff hnd]
  · rcases h with h | h
    · have hnm : filename ∉ dir := by
        intro hm
        have hc : dir.contains filename = true := List.elem_iff.mpr hm
        rw [hc] at h
        simp at h
      simp [deleteImage, hnm]
    · simp [deleteImage, h]

/-- Witness for C7: a present file is erased with success, an absent one
yields the 404 response. -/
theorem deleteImage_spec_witness :
    (["a.jpg", "b.png"].contains "a.jpg" = true) ∧
    deleteImage ["a.jpg", "b.png"] (fun _ => true) "a.jpg" =
      ({ status := 200, success := true, message := some "Deleted successfully" },
       ["b.png"]) ∧
    deleteImage ["b.png"] (fun _ => true) "a.jpg" =
      ({ status := 404, success := false
         message := some "File not found or already deleted" }, ["b.png"]) := by
  refine ⟨by decide, ?_, ?_⟩
  · exact ((deleteImage_spec ["a.jpg", "b.png"] (fun _ => true) "a.jpg").1
      (by decide) rfl).trans (by decide)
  · exact (deleteImage_spec ["b.png"] (fun _ => true) "a.jpg").2.2 (Or.inl (by decide))

/-- C8 counterexample: an empty-string Origin header is present (not absent)
and not a member of the default allow-list, yet the filter permits it, because
the JavaScript test is falsiness, not absence. -/
theorem corsOrigin_empty_origin_counterexample :
    corsOrigin defaultConfig.allowedOrigins (some "") = Except.ok true ∧
    defaultConfig.allowedOrigins.contains "" = false ∧
    (some "" : Option String) ≠ none := ⟨rfl, by decide, by decide⟩

/-- C8 amended: the filter permits a request exactly when the declared origin
is absent, is the empty string, or is a member of the allow-list; every other
request is rejected with the CORS error, and the filter is a pure function of
the origin and the allow-list. -/
theorem corsOrigin_allow_iff (allowedOrigins : List String)
    (origin : Option String) :
    (corsOrigin allowedOrigins origin = Except.ok true ↔
      origin = none ∨ origin = some "" ∨
        ∃ o, origin = some o ∧ allowedOrigins.contains o = true) ∧
    (corsOrigin allowedOrigins origin = Except.ok true ∨
      corsOrigin allowedOrigins origin = Except.error "Not allowed by CORS") := by
  constructor
  · cases origin with
    | none => simp [corsOrigin]
    | some o =>
      by_cases ho : o = ""
      · subst ho; simp [corsOrigin]
      · by_cases hc : allowedOrigins.contains o = true
        · simp [corsOrigin, ho, hc]
        · simp [corsOrigin, ho, hc]
  · cases origin with
    | none => exact Or.inl rfl
    | some o =>
      by_cases hcond : (decide (o = "") || allowedOrigins.contains o) = true
      · refine Or.inl ?_
        show (if (o = "" || allowedOrigins.contains o) = true then
            Except.ok true else Except.error "Not allowed by CORS") = Except.ok true
        rw [if_pos hcond]
      · refine Or.inr ?_
        show (if (o = "" || allowedOrigins.contains o) = true then
            Except.ok true else Except.error "Not allowed by CORS") = Except.error
              "Not allowed by CORS"
        rw [if_neg hcond]

/-- Witness for C8: a listed origin is permitted, via the amended theorem. -/
theorem corsOrigin_allow_iff_witness :
    corsOrigin ["https://soulcraftbd.com"] (some "https://soulcraftbd.com") =
      Except.ok true :=
  (corsOrigin_allow_iff ["https://soulcraftbd.com"]
    (some "https://soulcraftbd.com")).1.mpr
    (Or.inr (Or.inr ⟨"https://soulcraftbd.com", rfl, by decide⟩))

/-- C9: a single-upload request with no file part at all reaches the handler,
which dereferences the absent file, and the thrown error is caught by the
generic handler: a 500 with success false, no 400, and nothing written. -/
theorem uploadSingle_missing_file (cfg : Config) (io : WriteOracle) (now : Nat) :
    uploadSingle cfg io now [] =
      ({ status := 500, success := false, message := some noFileMsg }, []) := rfl

/-- C10: a multi-upload request with zero file parts succeeds with an empty
urls array and performs no write. -/
theorem uploadMultiple_empty (cfg : Config) (io : WriteOracle)
    (clock : Nat → Nat) :
    uploadMultiple cfg io clock [] =
      ({ status := 200, success := true, urls := some [] }, []) := rfl

/-- Unfolding of the multer stage on a cons cell. -/
theorem runMulter_cons (cfg : Config) (n : Nat) (p : FilePart) (ps : List FilePart) :
    runMulter cfg n (p :: ps) =
      (if n = 0 then Except.error MulterError.limitUnexpectedFile
      else if cfg.allowedTypes.contains p.mimetype then
        if p.buffer.length > cfg.maxFileSize then Except.error MulterError.limitFileSize
        else
          match runMulter cfg (n - 1) ps with
          | Except.error e => Except.error e
          | Except.ok rest => Except.ok (p :: rest)
      else Except.error (MulterError.filterError invalidTypeMsg)) := rfl

/-- Parts that all pass the count, type and size checks pass multer whole. -/
theorem runMulter_ok_of_valid (cfg : Config) :
    ∀ (files : List FilePart) (n : Nat), files.length ≤ n →
      (∀ f ∈ files, cfg.allowedTypes.contains f.mimetype = true ∧
        f.buffer.length ≤ cfg.maxFileSize) →
      runMulter cfg n files = Except.ok files := by
  intro files
  induction files with
  | nil => intro n _ _; rfl
  | cons p ps ih =>
    intro n hlen hval
    obtain ⟨hp1, hp2⟩ := hval p (List.mem_cons_self p ps)
    have hn : ¬ n = 0 := by simp only [List.length_cons] at hlen; omega
    have hrec : runMulter cfg (n - 1) ps = Except.ok ps :=
      ih (n - 1) (by simp only [List.length_cons] at hlen; omega)
        (fun f hf => hval f (List.mem_cons_of_mem p hf))
    rw [runMulter_cons, if_neg hn, if_pos hp1,
      if_neg (by omega : ¬ p.buffer.length > cfg.maxFileSize), hrec]

/-- The first part whose size exceeds the limit turns the multer run into the
LIMIT_FILE_SIZE error, when every earlier part passes all checks. -/
theorem runMulter_oversize (cfg : Config) :
    ∀ (pre : List FilePart) (n : Nat) (p : FilePart) (rest : List FilePart),
      (∀ q ∈ pre, cfg.allowedTypes.contains q.mimetype = true ∧
        q.buffer.length ≤ cfg.maxFileSize) →
      pre.length < n →
      cfg.allowedTypes.contains p.mimetype = true →
      cfg.maxFileSize < p.buffer.length →
      runMulter cfg n (pre ++ p :: rest) = Except.error MulterError.limitFileSize := by
  intro pre
  induction pre with
  | nil =>
    intro n p rest _ hn hp hsize
    have hn0 : ¬ n = 0 := by simp only [List.length_nil] at hn; omega
    rw [List.nil_append, runMulter_cons, if_neg hn0, if_pos hp, if_pos hsize]
  | cons q pre ih =>
    intro n p rest hval hn hp hsize
    obtain ⟨hq1, hq2⟩ := hval q (List.mem_cons_self q pre)
    have hn0 : ¬ n = 0 := by simp only [List.length_cons] at hn; omega
    have hrec := ih (n - 1) p rest (fun f hf => hval f (List.mem_cons_of_mem q hf))
      (by simp only [List.length_cons] at hn; omega) hp hsize
    rw [List.cons_append, runMulter_cons, if_neg hn0, if_pos hq1,
      if_neg (by omega : ¬ q.buffer.length > cfg.maxFileSize), hrec]

/-- A part with a disallowed MIME type anywhere in the request makes the
multer run fail with some error: the run never completes successfully. -/
theorem runMulter_err_of_bad_type (cfg : Config) :
    ∀ (files : List FilePart) (n : Nat) (p : FilePart),
      p ∈ files → cfg.allowedTypes.contains p.mimetype = false →
      ∃ e, runMulter cfg n files = Except.error e := by
  intro files
  induction files with
  | nil => intro n p hp _; cases hp
  | cons q ps ih =>
    intro n p hp hbad
    by_cases hn : n = 0
    · exact ⟨MulterError.limitUnexpectedFile, by rw [runMulter_cons, if_pos hn]⟩
    · by_cases hq : cfg.allowedTypes.contains q.mimetype = true
      · by_cases hs : q.buffer.length > cfg.maxFileSize
        · exact ⟨MulterError.limitFileSize, by
            rw [runMulter_cons, if_neg hn, if_pos hq, if_pos hs]⟩
        · have hps : p ∈ ps := by
            rcases List.mem_cons.mp hp with h | h
            · subst h; rw [hq] at hbad; cases hbad
            · exact h
          obtain ⟨e, he⟩ := ih (n - 1) p hps hbad
          exact ⟨e, by rw [runMulter_cons, if_neg hn, if_pos hq, if_neg hs, he]⟩
      · exact ⟨MulterError.filterError invalidTypeMsg, by
          rw [runMulter_cons, if_neg hn, if_neg hq]⟩

/-- compressImage succeeds when the write oracle accepts the file. -/
theorem compressImage_eq_ok (cfg : Config) (io : WriteOracle) (buffer : List Nat)
    (filename : String)
    (h : io filename (transcodeContent buffer filename) = none) :
    compressImage cfg io buffer filename =
      Except.ok (cfg.uploadsUrl ++ "/" ++ filename,
        (filename, transcodeContent buffer filename)) := by
  unfold compressImage
  rw [h]

/-- compressImage propagates the write oracle failure message. -/
theorem compressImage_eq_err (cfg : Config) (io : WriteOracle) (buffer : List Nat)
    (filename : String) (msg : String)
    (h : io filename (transcodeContent buffer filename) = some msg) :
    compressImage cfg io buffer filename = Except.error msg := by
  unfold compressImage
  rw [h]

/-- Unfolding of the multiple-upload loop when the head file fails:
the loop stops, nothing of the tail runs, the head writes nothing. -/
theorem processFiles_cons_err (cfg : Config) (io : WriteOracle) (clock : Nat → Nat)
    (i : Nat) (f : FilePart) (fs : List FilePart) (msg : String)
    (h : compressImage cfg io f.buffer (storedFilename (clock i) f.originalname) =
      Except.error msg) :
    processFiles cfg io clock i (f :: fs) = (Except.error msg, []) := by
  have e1 : processFiles cfg io clock i (f :: fs) =
      (match compressImage cfg io f.buffer (storedFilename (clock i) f.originalname) with
      | Except.error m => (Except.error m, [])
      | Except.ok (url, w) =>
        (match (processFiles cfg io clock (i + 1) fs).1 with
         | Except.error m => Except.error m
         | Except.ok urls => Except.ok (url :: urls),
         w :: (processFiles cfg io clock (i + 1) fs).2)) := rfl
  rw [e1, h]

/-- Unfolding of the multiple-upload loop when the head file succeeds:
its write is recorded and the loop continues on the tail at the next index. -/
theorem processFiles_cons_ok (cfg : Config) (io : WriteOracle) (clock : Nat → Nat)
    (i : Nat) (f : FilePart) (fs : List FilePart) (url : String)
    (w : String × EncodedContent)
    (h : compressImage cfg io f.buffer (storedFilename (clock i) f.originalname) =
      Except.ok (url, w)) :
    processFiles cfg io clock i (f :: fs) =
      (match (processFiles cfg io clock (i + 1) fs).1 with
       | Except.error msg => Except.error msg
       | Except.ok urls => Except.ok (url :: urls),
       w :: (processFiles cfg io clock (i + 1) fs).2) := by
  have e1 : processFiles cfg io clock i (f :: fs) =
      (match compressImage cfg io f.buffer (storedFilename (clock i) f.originalname) with
      | Except.error m => (Except.error m, [])
      | Except.ok (url, w) =>
        (match (processFiles cfg io clock (i + 1) fs).1 with
         | Except.error m => Except.error m
         | Except.ok urls => Except.ok (url :: urls),
         w :: (processFiles cfg io clock (i + 1) fs).2)) := rfl
  rw [e1, h]

/-- When the oracle accepts every file of the batch, the loop returns the
URLs in order and writes each file once, indices following the clock. -/
theorem processFiles_ok (cfg : Config) (io : WriteOracle) (clock : Nat → Nat) :
    ∀ (files : List FilePart) (i : Nat),
      (∀ q ∈ List.enumFrom i files,
        io (storedFilename (clock q.1) q.2.originalname)
          (transcodeContent q.2.buffer
            (storedFilename (clock q.1) q.2.originalname)) = none) →
      processFiles cfg io clock i files =
        (Except.ok ((List.enumFrom i files).map (fun q =>
            cfg.uploadsUrl ++ "/" ++ storedFilename (clock q.1) q.2.originalname)),
          (List.enumFrom i files).map (fun q =>
            (storedFilename (clock q.1) q.2.originalname,
             transcodeContent q.2.buffer
               (storedFilename (clock q.1) q.2.originalname)))) := by
  intro files
  induction files with
  | nil => intro i _; rfl
  | cons f fs ih =>
    intro i hio
    have hf : io (storedFilename (clock i) f.originalname)
        (transcodeContent f.buffer (storedFilename (clock i) f.originalname)) = none :=
      hio (i, f) (List.mem_cons_self _ _)
    rw [processFiles_cons_ok cfg io clock i f fs _ _
        (compressImage_eq_ok cfg io f.buffer _ hf),
      ih (i + 1) (fun q hq => hio q (List.mem_cons_of_mem _ hq))]
    rfl

/-- When the oracle accepts a prefix of the batch and rejects the next file,
the loop stops with that file's error and the trace holds exactly the writes
of the prefix. -/
theorem processFiles_first_fail (cfg : Config) (io : WriteOracle) (clock : Nat → Nat) :
    ∀ (pre : List FilePart) (i : Nat) (p : FilePart) (rest : List FilePart)
      (msg : String),
      (∀ q ∈ List.enumFrom i pre,
        io (storedFilename (clock q.1) q.2.originalname)
          (transcodeContent q.2.buffer
            (storedFilename (clock q.1) q.2.originalname)) = none) →
      io (storedFilename (clock (i + pre.length)) p.originalname)
        (transcodeContent p.buffer
          (storedFilename (clock (i + pre.length)) p.originalname)) = some msg →
      processFiles cfg io clock i (pre ++ p :: rest) =
        (Except.error msg,
          (List.enumFrom i pre).map (fun q =>
            (storedFilename (clock q.1) q.2.originalname,
             transcodeContent q.2.buffer
               (storedFilename (clock q.1) q.2.originalname)))) := by
  intro pre
  induction pre with
  | nil =>
    intro i p rest msg _ hfail
    rw [List.nil_append,
      processFiles_cons_err cfg io clock i p rest msg
        (compressImage_eq_err cfg io p.buffer _ msg (by simpa using hfail))]
    rfl
  | cons q pre ih =>
    intro i p rest msg hok hfail
    have hq : io (storedFilename (clock i) q.originalname)
        (transcodeContent q.buffer (storedFilename (clock i) q.originalname)) = none :=
      hok (i, q) (List.mem_cons_self _ _)
    have e : i + (q :: pre).length = i + 1 + pre.length := by
      simp only [List.length_cons]; omega
    have hfail2 := e ▸ hfail
    rw [List.cons_append,
      processFiles_cons_ok cfg io clock i q (pre ++ p :: rest) _ _
        (compressImage_eq_ok cfg io q.buffer _ hq),
      ih (i + 1) p rest msg (fun q2 hq2 => hok q2 (List.mem_cons_of_mem _ hq2)) hfail2]
    rfl

/-- C2: the stored filename is the millisecond timestamp, a hyphen, then the
client original name unchanged, and the returned value is the public base URL
followed by a slash and that stored filename, on the single and the multiple
route alike (one Date.now() call per file, hence the clock index). -/
theorem upload_naming_and_url (cfg : Config) (io : WriteOracle) (now : Nat)
    (clock : Nat → Nat) (p : FilePart) (files : List FilePart)
    (hp1 : cfg.allowedTypes.contains p.mimetype = true)
    (hp2 : p.buffer.length ≤ cfg.maxFileSize)
    (hpio : io (storedFilename now p.originalname)
      (transcodeContent p.buffer (storedFilename now p.originalname)) = none)
    (hlen : files.length ≤ cfg.maxFiles)
    (hval : ∀ f ∈ files, cfg.allowedTypes.contains f.mimetype = true ∧
      f.buffer.length ≤ cfg.maxFileSize)
    (hio : ∀ q ∈ files.enum,
      io (storedFilename (clock q.1) q.2.originalname)
        (transcodeContent q.2.buffer
          (storedFilename (clock q.1) q.2.originalname)) = none) :
    uploadSingle cfg io now [p] =
      ({ status := 200, success := true
         url := some (cfg.uploadsUrl ++ "/" ++ (toString now ++ "-" ++ p.originalname)) },
       [(toString now ++ "-" ++ p.originalname,
         transcodeContent p.buffer (toString now ++ "-" ++ p.originalname))]) ∧
    uploadMultiple cfg io clock files =
      ({ status := 200, success := true
         urls := some (files.enum.map (fun q =>
           cfg.uploadsUrl ++ "/" ++ (toString (clock q.1) ++ "-" ++ q.2.originalname))) },
       files.enum.map (fun q =>
         (toString (clock q.1) ++ "-" ++ q.2.originalname,
          transcodeContent q.2.buffer
            (toString (clock q.1) ++ "-" ++ q.2.originalname)))) := by
  constructor
  · have hm : runMulter cfg 1 [p] = Except.ok [p] :=
      runMulter_ok_of_valid cfg [p] 1 (by simp)
        (fun f hf => by rw [List.mem_singleton] at hf; subst hf; exact ⟨hp1, hp2⟩)
    have step : uploadSingle cfg io now [p] =
        (match compressImage cfg io p.buffer (storedFilename now p.originalname) with
        | Except.error msg => ({ status := 500, success := false, message := some msg }, [])
        | Except.ok (url, w) => ({ status := 200, success := true, url := some url }, [w])) := by
      unfold uploadSingle
      rw [hm]
      rfl
    rw [step, compressImage_eq_ok cfg io p.buffer _ hpio]
    rfl
  · have hm : runMulter cfg cfg.maxFiles files = Except.ok files :=
      runMulter_ok_of_valid cfg files cfg.maxFiles hlen hval
    have hpf := processFiles_ok cfg io clock files 0 hio
    have step : uploadMultiple cfg io clock files =
        (match processFiles cfg io clock 0 files with
        | (Except.error msg, ws) =>
          ({ status := 500, success := false, message := some msg }, ws)
        | (Except.ok urls, ws) =>
          ({ status := 200, success := true, urls := some urls }, ws)) := by
      unfold uploadMultiple
      rw [hm]
    rw [step, hpf]
    rfl

/-- Witness for C2: a name with a space is stored unchanged behind the
timestamp prefix on both routes. -/
theorem upload_naming_and_url_witness :
    uploadSingle defaultConfig (fun _ _ => none) 5
      [⟨"my cat.JPG", "image/jpeg", [1, 2]⟩] =
      ({ status := 200, success := true
         url := some "https://cdn.soulcraftbd.com/uploads/5-my cat.JPG" },
       [("5-my cat.JPG", EncodedContent.jpeg 80 true [1, 2])]) ∧
    uploadMultiple defaultConfig (fun _ _ => none) (fun i => i + 7)
      [⟨"b.webp", "image/webp", [3]⟩] =
      ({ status := 200, success := true
         urls := some ["https://cdn.soulcraftbd.com/uploads/7-b.webp"] },
       [("7-b.webp", EncodedContent.webp 80 [3])]) := by
  have h := upload_naming_and_url defaultConfig (fun _ _ => none) 5 (fun i => i + 7)
    ⟨"my cat.JPG", "image/jpeg", [1, 2]⟩ [⟨"b.webp", "image/webp", [3]⟩]
    (by decide) (by decide) rfl (by decide) (by decide) (fun q hq => rfl)
  exact ⟨h.1.trans (by decide), h.2.trans (by decide)⟩

/-- C3: a part exceeding the size limit is rejected with 400 and the
route-specific size message, distinct from the type-validation message, on
both routes; nothing is written; the default limit is 2 MiB. -/
theorem oversize_rejected (cfg : Config) (io : WriteOracle) (now : Nat)
    (clock : Nat → Nat) (pre : List FilePart) (p : FilePart) (rest : List FilePart)
    (hpre : ∀ q ∈ pre, cfg.allowedTypes.contains q.mimetype = true ∧
      q.buffer.length ≤ cfg.maxFileSize)
    (hlen : pre.length < cfg.maxFiles)
    (hp : cfg.allowedTypes.contains p.mimetype = true)
    (hsize : cfg.maxFileSize < p.buffer.length) :
    uploadSingle cfg io now (p :: rest) =
      ({ status := 400, success := false
         message := some "File too large (max 2MB)" }, []) ∧
    uploadMultiple cfg io clock (pre ++ p :: rest) =
      ({ status := 400, success := false
         message := some "Each file must be under 2MB" }, []) ∧
    sizeMsgSingle ≠ invalidTypeMsg ∧ sizeMsgMultiple ≠ invalidTypeMsg ∧
    defaultConfig.maxFileSize = 2 * 1024 * 1024 := by
  refine ⟨?_, ?_, by decide, by decide, rfl⟩
  · have hm : runMulter cfg 1 (p :: rest) = Except.error MulterError.limitFileSize :=
      runMulter_oversize cfg [] 1 p rest (fun q hq => absurd hq (List.not_mem_nil q))
        (by decide) hp hsize
    unfold uploadSingle
    rw [hm]
    rfl
  · have hm : runMulter cfg cfg.maxFiles (pre ++ p :: rest) =
        Except.error MulterError.limitFileSize :=
      runMulter_oversize cfg pre cfg.maxFiles p rest hpre hlen hp hsize
    unfold uploadMultiple
    rw [hm]
    rfl

/-- Witness for C3 at a shrunk limit: a 3-byte file over a 2-byte limit. -/
theorem oversize_rejected_witness :
    uploadSingle { defaultConfig with maxFileSize := 2 } (fun _ _ => none) 1
      [⟨"big.png", "image/png", [1, 2, 3]⟩] =
      ({ status := 400, success := false
         message := some "File too large (max 2MB)" }, []) ∧
    uploadMultiple { defaultConfig with maxFileSize := 2 } (fun _ _ => none)
      (fun i => i) [⟨"ok.png", "image/png", [1]⟩, ⟨"big.png", "image/png", [1, 2, 3]⟩] =
      ({ status := 400, success := false
         message := some "Each file must be under 2MB" }, []) := by
  have h := oversize_rejected { defaultConfig with maxFileSize := 2 }
    (fun _ _ => none) 1 (fun i => i) [⟨"ok.png", "image/png", [1]⟩]
    ⟨"big.png", "image/png", [1, 2, 3]⟩ [] (by decide) (by decide) (by decide)
    (by decide)
  exact ⟨h.1, h.2.1⟩

/-- C4: a part with a MIME type outside the allow-list makes both routes
answer 400 with nothing at all written to storage (multer buffers in memory
and the handlers only write after a fully successful parse); the default
allow-list is the three image types. -/
theorem bad_type_rejected (cfg : Config) (io : WriteOracle) (now : Nat)
    (clock : Nat → Nat) (parts : List FilePart) (p : FilePart)
    (hp : p ∈ parts)
    (hbad : cfg.allowedTypes.contains p.mimetype = false) :
    (uploadSingle cfg io now parts).1.status = 400 ∧
    (uploadSingle cfg io now parts).1.success = false ∧
    (uploadSingle cfg io now parts).2 = [] ∧
    (uploadMultiple cfg io clock parts).1.status = 400 ∧
    (uploadMultiple cfg io clock parts).1.success = false ∧
    (uploadMultiple cfg io clock parts).2 = [] ∧
    defaultConfig.allowedTypes = ["image/jpeg", "image/png", "image/webp"] := by
  obtain ⟨e1, he1⟩ := runMulter_err_of_bad_type cfg parts 1 p hp hbad
  obtain ⟨e2, he2⟩ := runMulter_err_of_bad_type cfg parts cfg.maxFiles p hp hbad
  refine ⟨?_, ?_, ?_, ?_, ?_, ?_, rfl⟩
  · unfold uploadSingle; rw [he1]; rfl
  · unfold uploadSingle; rw [he1]; rfl
  · unfold uploadSingle; rw [he1]
  · unfold uploadMultiple; rw [he2]; rfl
  · unfold uploadMultiple; rw [he2]; rfl
  · unfold uploadMultiple; rw [he2]

/-- Witness for C4: a GIF part is refused on both routes with no write. -/
theorem bad_type_rejected_witness :
    (uploadSingle defaultConfig (fun _ _ => none) 1
      [⟨"x.gif", "image/gif", [1]⟩]).1.status = 400 ∧
    (uploadSingle defaultConfig (fun _ _ => none) 1
      [⟨"x.gif", "image/gif", [1]⟩]).2 = [] ∧
    (uploadMultiple defaultConfig (fun _ _ => none) (fun i => i)
      [⟨"x.gif", "image/gif", [1]⟩]).1.status = 400 ∧
    (uploadMultiple defaultConfig (fun _ _ => none) (fun i => i)
      [⟨"x.gif", "image/gif", [1]⟩]).2 = [] := by
  have h := bad_type_rejected defaultConfig (fun _ _ => none) 1 (fun i => i)
    [⟨"x.gif", "image/gif", [1]⟩] ⟨"x.gif", "image/gif", [1]⟩
    (List.mem_singleton.mpr rfl) (by decide)
  exact ⟨h.1, h.2.2.1, h.2.2.2.1, h.2.2.2.2.2.1⟩

/-- C5: in a multi-file batch, the first file whose transcode or write fails
makes the whole response that file's 500 error, and the write trace holds
exactly the files processed before it: they stay on disk, no rollback. -/
theorem multiple_first_failure (cfg : Config) (io : WriteOracle)
    (clock : Nat → Nat) (pre : List FilePart) (p : FilePart)
    (rest : List FilePart) (msg : String)
    (hval : ∀ q ∈ pre ++ p :: rest, cfg.allowedTypes.contains q.mimetype = true ∧
      q.buffer.length ≤ cfg.maxFileSize)
    (hlen : (pre ++ p :: rest).length ≤ cfg.maxFiles)
    (hok : ∀ q ∈ pre.enum,
      io (storedFilename (clock q.1) q.2.originalname)
        (transcodeContent q.2.buffer
          (storedFilename (clock q.1) q.2.originalname)) = none)
    (hfail : io (storedFilename (clock pre.length) p.originalname)
      (transcodeContent p.buffer
        (storedFilename (clock pre.length) p.originalname)) = some msg) :
    uploadMultiple cfg io clock (pre ++ p :: rest) =
      ({ status := 500, success := false, message := some msg },
       pre.enum.map (fun q =>
         (toString (clock q.1) ++ "-" ++ q.2.originalname,
          transcodeContent q.2.buffer
            (toString (clock q.1) ++ "-" ++ q.2.originalname)))) := by
  have hm : runMulter cfg cfg.maxFiles (pre ++ p :: rest) =
      Except.ok (pre ++ p :: rest) :=
    runMulter_ok_of_valid cfg _ _ hlen hval
  have hpf := processFiles_first_fail cfg io clock pre 0 p rest msg hok
    (by simpa using hfail)
  have step : uploadMultiple cfg io clock (pre ++ p :: rest) =
      (match processFiles cfg io clock 0 (pre ++ p :: rest) with
      | (Except.error m, ws) =>
        ({ status := 500, success := false, message := some m }, ws)
      | (Except.ok urls, ws) =>
        ({ status := 200, success := true, urls := some urls }, ws)) := by
    unfold uploadMultiple
    rw [hm]
  rw [step, hpf]
  rfl

/-- Witness for C5: the second of three files fails; the response carries its
error and the trace keeps exactly the first file's write. -/
theorem multiple_first_failure_witness :
    uploadMultiple defaultConfig
      (fun fn _ => if fn = "1-b.png" then some "boom" else none) (fun i => i)
      [⟨"a.png", "image/png", [1]⟩, ⟨"b.png", "image/png", [2]⟩,
       ⟨"c.png", "image/png", [3]⟩] =
      ({ status := 500, success := false, message := some "boom" },
       [("0-a.png", EncodedContent.png 9 true [1])]) := by
  have h := multiple_first_failure defaultConfig
    (fun fn _ => if fn = "1-b.png" then some "boom" else none) (fun i => i)
    [⟨"a.png", "image/png", [1]⟩] ⟨"b.png", "image/png", [2]⟩
    [⟨"c.png", "image/png", [3]⟩] "boom"
    (by decide) (by decide) (by decide) (by decide)
  exact h.trans (by decide)

end ImageServer
